import Mathlib

/-!
Verification development for the consul-template Runner
(`src/manager/runner.go`).

The Go code is shallowly embedded: maps become association lists
(`List (String × _)`), channels become explicit buffers or oracle inputs,
`time.Time`/`time.Duration` become `Int`, and the external collaborators
(Watcher, Brain, FileSink, Child, DedupManager) are represented by the
state they expose to the Runner.  Each definition mirrors one function or
code region of `runner.go`; line references are given in the doc comments.
-/

namespace ConsulTemplate

/-- A dependency as the Runner sees it (`dep.Dependency`): a stable hash
key (`HashCode`), a display form, and the `CanShare` capability flag. -/
structure Dependency where
  hashCode : String
  display : String
  canShare : Bool
deriving DecidableEq

/-! ## Association-list helpers (Go maps keyed by strings) -/

/-- `Brain.Forget(d)`: drop every entry stored under hash key `h`. -/
def brainForget {V : Type} (b : List (String × V)) (h : String) : List (String × V) :=
  b.filter (fun p => !(p.1 == h))

/-- `Brain.Remember(d, data)`: store `v` under hash key `h`, overwriting
any previous value (Go map assignment). -/
def brainRemember {V : Type} (b : List (String × V)) (h : String) (v : V) :
    List (String × V) :=
  (h, v) :: brainForget b h

/-- `watcher.Watching(d)`: the watcher's subscription set is modelled as
the list of subscribed hash codes. -/
def watching (watched : List String) (d : Dependency) : Bool :=
  watched.contains d.hashCode

/-- `watcher.Add(d)`: subscribe (set semantics: adding an existing
subscription is a no-op). -/
def watcherAdd (watched : List String) (d : Dependency) : List String :=
  if watched.contains d.hashCode then watched else watched ++ [d.hashCode]

/-- `watcher.Remove(d)`: drop the subscription for `d` entirely. -/
def watcherRemove (watched : List String) (d : Dependency) : List String :=
  watched.filter (fun h => !(h == d.hashCode))

/-! ## Quiescence (runner.go lines 988-1038)

Wall-clock instants and durations are `Int`.  The Go `*time.Timer` is
modelled by the absolute instant `fire` at which the currently armed
timer will deliver the template on the quiescence channel; `fire = none`
models the nil timer of a freshly created record. -/

/-- `quiescence`: per-template dampening state (fields `min`, `max`,
`timer` as its pending absolute fire instant, `deadline`). -/
structure Quiescence where
  min : Int
  max : Int
  fire : Option Int
  deadline : Int
deriving DecidableEq

/-- `newQuiescence` (lines 1000-1007): timer not yet armed. -/
def newQuiescence (mn mx : Int) : Quiescence :=
  { min := mn, max := mx, fire := none, deadline := 0 }

/-- `quiescence.tick` (lines 1010-1038).  First tick: arm a single-shot
timer for `min` and set `deadline = now + max`.  Subsequent tick: snooze
to `min` if `now + min` is strictly before the deadline (`time.Before`),
else clamp to `deadline - now` when that duration is positive, else
leave the already-pending fire alone. -/
def Quiescence.tick (q : Quiescence) (now : Int) : Quiescence :=
  match q.fire with
  | none => { q with fire := some (now + q.min), deadline := now + q.max }
  | some _ =>
    if now + q.min < q.deadline then { q with fire := some (now + q.min) }
    else if 0 < q.deadline - now then { q with fire := some q.deadline }
    else q

/-- A sequence of ticks applied in order. -/
def Quiescence.run (q : Quiescence) (ts : List Int) : Quiescence :=
  ts.foldl Quiescence.tick q

/-- A tick sequence is live when every tick happens strictly before the
currently pending fire instant (the record has not yet fired, so it has
not been consumed and deleted by the main loop). -/
def liveSeq (q : Quiescence) : List Int → Bool
  | [] => true
  | t :: ts =>
    (match q.fire with
     | some f => decide (t < f)
     | none => false) && liveSeq (q.tick t) ts

/-! ## Watcher error handling (runner.go lines 289-311)

`r.watcher.ErrCh` delivers an error that may type-assert to
`*dep.FetchError`; the assertion result is modelled as an optional
`(ShouldExit, OriginalError)` pair carried next to the error value. -/

/-- An error received on the watcher's error channel. -/
structure WatcherError (E : Type) where
  err : E
  fetch : Option (Bool × E)
deriving DecidableEq

/-- The main loop's watcher-error branch: `some e` means `e` is pushed on
`r.ErrCh` and `Start` returns; `none` means the error is only logged and
the loop continues. -/
def handleWatcherError {E : Type} (once : Bool) (w : WatcherError E) : Option E :=
  match w.fetch with
  | some (true, orig) => some orig
  | _ => if once then some w.err else none

/-! ## Stop (runner.go lines 338-351)

`Stop` halts the de-duplication manager, the watcher and the child, best-
effort removes the PID file (failure is only logged), and then executes
`close(r.DoneCh)`.  Closing an already-closed Go channel panics, so the
model of `close` is fallible. -/

/-- The lifecycle state `Stop` manipulates. -/
structure StopState where
  dedupPresent : Bool
  dedupRunning : Bool
  watcherRunning : Bool
  childPresent : Bool
  childRunning : Bool
  pidFile : Bool
  doneClosed : Bool
deriving DecidableEq

/-- `stopDedup` (lines 372-379).  Modelled from the spec: the collaborator
method `DedupManager.Stop` lives outside this package; per the spec a
repeated stop observes the manager already halted, i.e. it is an
idempotent halt. -/
def stopDedup (s : StopState) : StopState :=
  if s.dedupPresent then { s with dedupRunning := false } else s

/-- `stopWatcher` (lines 381-388).  Modelled from the spec: `Watcher.Stop`
lives outside this package and is an idempotent halt. -/
def stopWatcher (s : StopState) : StopState :=
  { s with watcherRunning := false }

/-- `stopChild` (lines 390-400).  Modelled from the spec: `Child.Stop`
lives outside this package and is an idempotent halt. -/
def stopChild (s : StopState) : StopState :=
  if s.childPresent then { s with childRunning := false } else s

/-- `deletePid` (lines 916-938) as called from `Stop`: any error is only
logged, so the step never faults; the PID file is gone afterwards. -/
def deletePidStep (s : StopState) : StopState :=
  { s with pidFile := false }

/-- Go `close` on a channel: faults (panics) when the channel is already
closed. -/
def closeChan (closed : Bool) : Except String Bool :=
  if closed then Except.error "close of closed channel" else Except.ok true

/-- `Runner.Stop` (lines 338-351): stop dedup, stop watcher, stop child,
best-effort delete the PID file, then `close(r.DoneCh)`. -/
def StopRunner (s : StopState) : Except String StopState :=
  let s1 := deletePidStep (stopChild (stopWatcher (stopDedup s)))
  match closeChan s1.doneClosed with
  | Except.ok _ => Except.ok { s1 with doneClosed := true }
  | Except.error e => Except.error e

/-! ## Runner state and the render pass (`Runner.Run`, lines 444-661)

The Runner state relevant to the claims: the watcher's subscription set,
the render-event map (the pass only reads/writes presence, so it is the
list of template IDs having an event; timestamps are modelled separately
for `RenderEvents`), the tracked dependency map `r.dependencies`, the
Brain, and the buffered element count of the capacity-one `renderedCh`. -/

structure RunnerState (V : Type) where
  watched : List String
  events : List String
  dependencies : List (String × Dependency)
  brain : List (String × V)
  renderedBuf : Nat
deriving DecidableEq

/-- `Runner.Receive` (lines 406-424): data is remembered only when the
dependency's hash key is present in the currently tracked set. -/
def Receive {V : Type} (s : RunnerState V) (d : Dependency) (data : V) : RunnerState V :=
  if (s.dependencies.lookup d.hashCode).isSome then
    { s with brain := brainRemember s.brain d.hashCode data }
  else s

/-- One step of the loop body of `diffAndUpdateDeps` (lines 764-772):
a previously tracked dependency absent from the new map is removed from
the watcher and forgotten from the Brain. -/
def diffStep {V : Type} (depsMap : List (String × Dependency))
    (acc : RunnerState V) (kd : String × Dependency) : RunnerState V :=
  if (depsMap.lookup kd.1).isSome then acc
  else { acc with watched := watcherRemove acc.watched kd.2,
                  brain := brainForget acc.brain kd.2.hashCode }

/-- `Runner.diffAndUpdateDeps` (lines 760-775). -/
def diffAndUpdateDeps {V : Type} (depsMap : List (String × Dependency))
    (s : RunnerState V) : RunnerState V :=
  let s2 := s.dependencies.foldl (diffStep depsMap) s
  { s2 with dependencies := depsMap }

/-! ## Per-template processing inside a render pass -/

/-- The inputs `Run` consumes for one template: its ID, leadership as
reported by the dedup manager (line 454-458), the evaluator result
(`result.Used`, `result.Missing`, line 485), whether a quiescence record
exists for it (line 539), and the per-configuration FileSink outcomes
(each configuration contributes its `Exec.Command` string and the
`WouldRender`/`DidRender` flags its `Render` call reports, lines 546-561). -/
structure ConfigOutcome where
  command : String
  wouldRender : Bool
  didRender : Bool
deriving DecidableEq

structure TmplInput where
  id : String
  isLeader : Bool
  used : List Dependency
  missing : List Dependency
  hasQuiescence : Bool
  configs : List ConfigOutcome
deriving DecidableEq

/-- Pass-local state of `Run`: the Runner state plus `depsMap`,
`commands`, `wouldRenderAny` and `renderedAny` (lines 447-449). -/
structure PassState (V : Type) where
  rs : RunnerState V
  depsMap : List (String × Dependency)
  commands : List String
  wouldRenderAny : Bool
  renderedAny : Bool
deriving DecidableEq

/-- Lines 488-494: when this agent is leader, any `used` dependency the
watcher is not subscribed to is appended to `missing`. -/
def augmentedMissing (isLeader : Bool) (missing used : List Dependency)
    (watched : List String) : List Dependency :=
  missing ++ used.filter (fun d => isLeader && !(watching watched d))

/-- Lines 495-497: accumulate every `used` dependency into the pass-local
dependency map, keyed by hash code, first occurrence wins. -/
def accumulateDeps (depsMap : List (String × Dependency)) (used : List Dependency) :
    List (String × Dependency) :=
  used.foldl
    (fun m d => if (m.lookup d.hashCode).isSome then m else m ++ [(d.hashCode, d)])
    depsMap

/-- Outcome of the unwatched-dependency step (lines 502-521): the
computed `unwatched` list, the dependencies actually added to the
watcher, and the watcher's new subscription set. -/
structure DepStepOut where
  watched : List String
  added : List Dependency
  unwatched : List Dependency
deriving DecidableEq

/-- Lines 502-519: `unwatched` is every missing dependency the watcher
is not watching; each unwatched `d` is added to the watcher when
`isLeader || !d.CanShare()`. -/
def depStep (isLeader : Bool) (missing : List Dependency) (watched : List String) :
    DepStepOut :=
  let unwatched := missing.filter (fun d => !(watching watched d))
  let added := unwatched.filter (fun d => isLeader || !d.canShare)
  { watched := added.foldl watcherAdd watched, added := added, unwatched := unwatched }

/-- `markRenderTime` as the pass observes it (lines 813-835): create the
event on first observation; presence only. -/
def addEvent (id : String) (events : List String) : List String :=
  if events.contains id then events else events ++ [id]

/-- `commandExists` (lines 1042-1051): a command string is already
scheduled when some accumulated entry carries the same string. -/
def commandExists (needle : String) (cmds : List String) : Bool :=
  cmds.any (fun t => needle == t)

/-- Lines 546-603, one template configuration: mark `LastWouldRender` /
`LastDidRender`, set the pass flags, and (not in dry mode) accumulate a
non-empty command unless an identical string is already scheduled. -/
def renderConfig {V : Type} (dry : Bool) (id : String)
    (s : PassState V) (c : ConfigOutcome) : PassState V :=
  let s1 :=
    if c.wouldRender then
      { s with rs := { s.rs with events := addEvent id s.rs.events },
               wouldRenderAny := true }
    else s
  if c.didRender then
    let s2 := { s1 with rs := { s1.rs with events := addEvent id s1.rs.events },
                        renderedAny := true }
    if !dry && !(c.command == "") && !(commandExists c.command s2.commands) then
      { s2 with commands := s2.commands ++ [c.command] }
    else s2
  else s1

/-- Lines 451-604, one iteration of the template loop:
once-mode skip (463-471), missing augmentation (488-498), the unwatched
step (502-521), the missing-data skip (525-528), the quiescence skip
(539-542; the `tick` itself is modelled by `Quiescence.tick`), and the
configuration loop (546-603). -/
def processTemplate {V : Type} (once dry : Bool)
    (s : PassState V) (t : TmplInput) : PassState V :=
  if once && s.rs.events.contains t.id then s
  else
    let missing := augmentedMissing t.isLeader t.missing t.used s.rs.watched
    let dm := accumulateDeps s.depsMap t.used
    let o := depStep t.isLeader missing s.rs.watched
    if !o.unwatched.isEmpty then
      { s with depsMap := dm, rs := { s.rs with watched := o.watched } }
    else if !missing.isEmpty then
      { s with depsMap := dm }
    else if t.hasQuiescence then
      { s with depsMap := dm }
    else
      t.configs.foldl (renderConfig dry t.id) { s with depsMap := dm }

/-! ## The rendered-notification channel (line 726 and lines 606-613) -/

/-- `r.renderedCh = make(chan struct, 1)` (line 726): capacity one. -/
def renderedChCap : Nat := 1

/-- The non-blocking send of lines 609-612: deliver into the buffer when
there is room, otherwise drop. -/
def trySendRendered (buf : Nat) : Nat :=
  if buf < renderedChCap then buf + 1 else buf

/-- Lines 607-613: signal only when some template would-rendered or
did-render this pass. -/
def signalRendered (wouldAny didAny : Bool) (buf : Nat) : Nat :=
  if wouldAny || didAny then trySendRendered buf else buf

/-- A consumer read on `TemplateRenderedCh` takes one buffered element. -/
def consumeRendered (buf : Nat) : Nat := buf - 1

/-- Interleaved channel history: pass-end signals and consumer reads. -/
inductive ChanOp where
  | signal (wouldAny didAny : Bool)
  | consume
deriving DecidableEq

def chanStep (buf : Nat) : ChanOp → Nat
  | ChanOp.signal w d => signalRendered w d buf
  | ChanOp.consume => consumeRendered buf

/-! ## The whole render pass -/

/-- Result of `Run`: the new Runner state, the accumulated command list,
and the collected per-command errors. -/
structure RunOutput (V E : Type) where
  rs : RunnerState V
  commands : List String
  errs : List E
deriving DecidableEq

/-- Fresh pass-local state (lines 447-449). -/
def initPass {V : Type} (rs : RunnerState V) : PassState V :=
  { rs := rs, depsMap := [], commands := [], wouldRenderAny := false,
    renderedAny := false }

/-- Lines 620-638: execute each accumulated command in sequence,
collecting every error instead of short-circuiting.  `spawn` is the
oracle for `spawnChild`: `some e` means the spawn failed with `e`. -/
def executeCommands {E : Type} (spawn : String → Option E) (cmds : List String) :
    List E :=
  cmds.foldl
    (fun es c => match spawn c with
      | some e => es ++ [e]
      | none => es)
    []

/-- `Runner.Run` (lines 444-661): template loop, rendered-channel signal,
dependency reconciliation, command execution.  (The child reload of
lines 642-648 concerns exec-mode supervision and is outside the claims.) -/
def runPass {V E : Type} (once dry : Bool) (tmpls : List TmplInput)
    (spawn : String → Option E) (rs : RunnerState V) : RunOutput V E :=
  let ps := tmpls.foldl (processTemplate once dry) (initPass rs)
  let rs1 := { ps.rs with
                renderedBuf := signalRendered ps.wouldRenderAny ps.renderedAny
                  ps.rs.renderedBuf }
  let rs2 := diffAndUpdateDeps ps.depsMap rs1
  { rs := rs2, commands := ps.commands, errs := executeCommands spawn ps.commands }

/-! ## Once-mode loop exit (runner.go lines 196-256, 798-811) -/

/-- `Runner.allTemplatesRendered` (lines 798-811). -/
def allTemplatesRendered (tmpls : List TmplInput) (events : List String) : Bool :=
  tmpls.all (fun t => events.contains t.id)

/-- Go `sync.RWMutex.Unlock`: releasing the write lock is an
unrecoverable runtime fatal when the lock is not held. -/
def rwUnlock (held : Bool) : Except String Bool :=
  if held then Except.ok false
  else Except.error "sync: Unlock of unlocked RWMutex"

/-- How the all-rendered block of a main-loop iteration leaves the
loop, when it survives the block at all. -/
inductive LoopExit where
  | spawnFailed
  | childDied (code : Int)
  | stopped
  | keepRunning
deriving DecidableEq

/-- Lines 196-256, the `if r.allTemplatesRendered()` block of one
main-loop iteration.  When an exec command is configured the block runs
`r.childLock.Unlock()` — line 216 on the failed-spawn exit (after
pushing the spawn error), line 221 otherwise — although `runner.go`
never takes the write lock (`childLock.Lock()` appears nowhere, only
`RLock`s elsewhere), so in the program `childLockHeld` is `false` and
the unlock is the Go runtime fatal modelled by `rwUnlock`.  Only past
it does the once-mode check of lines 236-255 run: with a child under
management, stop dedup and the watcher and wait on the child's exit
channel (`childExit = some code`, surfacing `ChildDied`) or the done
channel (`childExit = none`), then stop and return. -/
def onceCheck (once allRendered execConfigured childPresent childLockHeld
    spawnOk : Bool) (childExit : Option Int) : Except String LoopExit :=
  if allRendered then
    if execConfigured then
      if !childPresent && !spawnOk then
        match rwUnlock childLockHeld with
        | Except.ok _ => Except.ok LoopExit.spawnFailed
        | Except.error e => Except.error e
      else
        match rwUnlock childLockHeld with
        | Except.ok _ =>
          if once then
            match childExit with
            | some c => Except.ok (LoopExit.childDied c)
            | none => Except.ok LoopExit.stopped
          else Except.ok LoopExit.keepRunning
        | Except.error e => Except.error e
    else
      if once then Except.ok LoopExit.stopped
      else Except.ok LoopExit.keepRunning
  else Except.ok LoopExit.keepRunning

/-! ## RenderEvents snapshots (runner.go lines 359-370, 813-835)

`r.renderEvents` is `map[string]*RenderEvent`: the map sends a template
ID to a pointer.  Pointers are modelled as indices (`Nat`) into a heap
list; `RenderEvents` copies the map — i.e. the ID-to-pointer association
— while the pointed-to records stay shared. -/

/-- `RenderEvent` (lines 100-108); times are `Int`, `0` the zero value. -/
structure REvent where
  lastWouldRender : Int
  lastDidRender : Int
deriving DecidableEq

/-- Field update of lines 830-834. -/
def REvent.mark (e : REvent) (didRender : Bool) (now : Int) : REvent :=
  if didRender then { e with lastDidRender := now }
  else { e with lastWouldRender := now }

structure EventsState where
  renderEvents : List (String × Nat)
  heap : List (Nat × REvent)
  nextRef : Nat
deriving DecidableEq

/-- In-place mutation through a pointer: rewrite the record at `r`. -/
def heapUpdate (h : List (Nat × REvent)) (r : Nat) (f : REvent → REvent) :
    List (Nat × REvent) :=
  h.map (fun p => if p.1 == r then (p.1, f p.2) else p)

/-- Dereference a pointer against the current heap. -/
def derefEvent (s : EventsState) (r : Nat) : Option REvent :=
  s.heap.lookup r

/-- `Runner.markRenderTime` (lines 816-835): fetch the event pointer for
the ID, allocating a fresh zero record on first observation, then set
`LastDidRender` or `LastWouldRender` through the pointer. -/
def markRenderTime (s : EventsState) (id : String) (didRender : Bool) (now : Int) :
    EventsState :=
  match s.renderEvents.lookup id with
  | some r => { s with heap := heapUpdate s.heap r (fun e => e.mark didRender now) }
  | none =>
      { renderEvents := s.renderEvents ++ [(id, s.nextRef)],
        heap := s.heap ++ [(s.nextRef, REvent.mark (REvent.mk 0 0) didRender now)],
        nextRef := s.nextRef + 1 }

/-- `Runner.RenderEvents` (lines 361-370): copy the map; the values (the
pointers) are copied as-is. -/
def renderEventsSnapshot (s : EventsState) : List (String × Nat) :=
  s.renderEvents

/-- The unwatched-dependency computation of one template-loop iteration,
as `processTemplate` performs it (lines 488-519). -/
def unwatchedStep {V : Type} (s : PassState V) (t : TmplInput) : DepStepOut :=
  depStep t.isLeader (augmentedMissing t.isLeader t.missing t.used s.rs.watched)
    s.rs.watched

/-! ## Helper lemmas -/

section Helpers

variable {V E : Type}

theorem mem_of_lookup_eq_some {l : List (String × V)} {k : String} {v : V}
    (h : l.lookup k = some v) : (k, v) ∈ l := by
  induction l with
  | nil => simp [List.lookup] at h
  | cons p l ih =>
    obtain ⟨a, b⟩ := p
    by_cases hak : k = a
    · subst hak
      simp [List.lookup] at h
      simp [h]
    · have hb : (k == a) = false := beq_eq_false_iff_ne.mpr hak
      simp [List.lookup, hb] at h
      exact List.mem_cons_of_mem _ (ih h)

theorem lookup_isSome_elim {l : List (String × V)} {k : String}
    (h : (l.lookup k).isSome = true) : ∃ v, (k, v) ∈ l := by
  obtain ⟨v, hv⟩ := Option.isSome_iff_exists.mp h
  exact ⟨v, mem_of_lookup_eq_some hv⟩

theorem lookup_eq_none_of_noKey {l : List (String × V)} {k : String}
    (h : ∀ p ∈ l, p.1 ≠ k) : l.lookup k = none := by
  induction l with
  | nil => rfl
  | cons p l ih =>
    obtain ⟨a, b⟩ := p
    have hk : (k == a) = false := by
      have : a ≠ k := h (a, b) (List.mem_cons_self _ l)
      exact beq_eq_false_iff_ne.mpr (Ne.symm this)
    rw [List.lookup_cons]
    simp only [hk]
    exact ih (fun q hq => h q (List.mem_cons_of_mem _ hq))

theorem mem_of_mem_brainForget {b : List (String × V)} {h : String} {p : String × V}
    (hp : p ∈ brainForget b h) : p ∈ b :=
  (List.mem_filter.mp hp).1

theorem brainForget_key_ne {b : List (String × V)} {h : String} {p : String × V}
    (hp : p ∈ brainForget b h) : p.1 ≠ h := by
  have := (List.mem_filter.mp hp).2
  simpa using this

theorem lookup_brainRemember_self {b : List (String × V)} {h : String} {v : V} :
    (brainRemember b h v).lookup h = some v := by
  simp [brainRemember, List.lookup]

theorem mem_of_mem_watcherRemove {w : List String} {d : Dependency} {x : String}
    (hx : x ∈ watcherRemove w d) : x ∈ w :=
  (List.mem_filter.mp hx).1

theorem not_mem_watcherRemove_self {w : List String} {d : Dependency} :
    d.hashCode ∉ watcherRemove w d := by
  intro hx
  have := (List.mem_filter.mp hx).2
  simp at this

theorem foldl_preserve {σ α τ : Type} (f : σ → α → σ) (proj : σ → τ)
    (hp : ∀ s a, proj (f s a) = proj s) :
    ∀ (l : List α) (s : σ), proj (l.foldl f s) = proj s := by
  intro l
  induction l with
  | nil => intro s; rfl
  | cons a l ih => intro s; rw [List.foldl_cons, ih, hp]

theorem foldl_pred_preserve {σ α : Type} (f : σ → α → σ) (P : σ → Prop)
    (hp : ∀ s a, P s → P (f s a)) :
    ∀ (l : List α) (s : σ), P s → P (l.foldl f s) := by
  intro l
  induction l with
  | nil => intro s hs; exact hs
  | cons a l ih => intro s hs; rw [List.foldl_cons]; exact ih _ (hp s a hs)

theorem commandExists_eq_true_iff {n : String} {l : List String} :
    commandExists n l = true ↔ n ∈ l := by
  unfold commandExists
  rw [List.any_eq_true]
  constructor
  · rintro ⟨x, hx, hbeq⟩
    have hnx : n = x := by simpa using hbeq
    simpa [hnx] using hx
  · intro h
    exact ⟨n, h, by simp⟩

theorem commandExists_eq_false_iff {n : String} {l : List String} :
    commandExists n l = false ↔ n ∉ l := by
  constructor
  · intro h hmem
    have : commandExists n l = true := commandExists_eq_true_iff.mpr hmem
    rw [h] at this
    exact Bool.false_ne_true this
  · intro h
    cases hcc : commandExists n l
    · rfl
    · exact absurd (commandExists_eq_true_iff.mp hcc) h

theorem diffStep_dependencies {dm : List (String × Dependency)}
    {acc : RunnerState V} {kd : String × Dependency} :
    (diffStep dm acc kd).dependencies = acc.dependencies := by
  unfold diffStep; split <;> rfl

theorem diffStep_events {dm : List (String × Dependency)}
    {acc : RunnerState V} {kd : String × Dependency} :
    (diffStep dm acc kd).events = acc.events := by
  unfold diffStep; split <;> rfl

theorem diffStep_renderedBuf {dm : List (String × Dependency)}
    {acc : RunnerState V} {kd : String × Dependency} :
    (diffStep dm acc kd).renderedBuf = acc.renderedBuf := by
  unfold diffStep; split <;> rfl

theorem diffStep_watched_subset {dm : List (String × Dependency)}
    {acc : RunnerState V} {kd : String × Dependency} {x : String}
    (hx : x ∈ (diffStep dm acc kd).watched) : x ∈ acc.watched := by
  unfold diffStep at hx
  split at hx
  · exact hx
  · exact mem_of_mem_watcherRemove hx

theorem diffStep_brain_subset {dm : List (String × Dependency)}
    {acc : RunnerState V} {kd : String × Dependency} {p : String × V}
    (hp : p ∈ (diffStep dm acc kd).brain) : p ∈ acc.brain := by
  unfold diffStep at hp
  split at hp
  · exact hp
  · exact mem_of_mem_brainForget hp

theorem diffStep_stale {dm : List (String × Dependency)}
    {acc : RunnerState V} {kd : String × Dependency}
    (hstale : dm.lookup kd.1 = none) :
    (diffStep dm acc kd).watched = watcherRemove acc.watched kd.2 ∧
    (diffStep dm acc kd).brain = brainForget acc.brain kd.2.hashCode := by
  unfold diffStep
  simp [hstale]

/-- Once the loop of `diffAndUpdateDeps` has processed a stale tracked
dependency, its hash code is out of the watcher and no brain entry is
stored under it, and both facts survive the remaining iterations. -/
theorem diffFold_stale_killed {dm : List (String × Dependency)} :
    ∀ (L : List (String × Dependency)) (acc : RunnerState V)
      (kd : String × Dependency), kd ∈ L → dm.lookup kd.1 = none →
      kd.2.hashCode ∉ ((L.foldl (diffStep dm) acc)).watched ∧
      ∀ p ∈ ((L.foldl (diffStep dm) acc)).brain, p.1 ≠ kd.2.hashCode := by
  intro L
  induction L with
  | nil => intro acc kd h; exact absurd h (List.not_mem_nil kd)
  | cons kd0 L ih =>
    intro acc kd hmem hstale
    rw [List.foldl_cons]
    rcases List.mem_cons.mp hmem with heq | hmem2
    · subst heq
      constructor
      · refine foldl_pred_preserve (diffStep dm)
          (fun a => kd.2.hashCode ∉ a.watched) ?_ L (diffStep dm acc kd) ?_
        · intro a x hni hmemw
          exact hni (diffStep_watched_subset hmemw)
        · show kd.2.hashCode ∉ (diffStep dm acc kd).watched
          rw [(diffStep_stale hstale).1]
          exact not_mem_watcherRemove_self
      · refine foldl_pred_preserve (diffStep dm)
          (fun a => ∀ p ∈ a.brain, p.1 ≠ kd.2.hashCode) ?_ L
          (diffStep dm acc kd) ?_
        · intro a x hall p hp
          exact hall p (diffStep_brain_subset hp)
        · show ∀ p ∈ (diffStep dm acc kd).brain, p.1 ≠ kd.2.hashCode
          rw [(diffStep_stale hstale).2]
          intro p hp
          exact brainForget_key_ne hp
    · exact ih (diffStep dm acc kd0) kd hmem2 hstale

theorem diffFold_brain_subset {dm : List (String × Dependency)} :
    ∀ (L : List (String × Dependency)) (acc : RunnerState V) (p : String × V),
      p ∈ ((L.foldl (diffStep dm) acc)).brain → p ∈ acc.brain := by
  intro L
  induction L with
  | nil => intro acc p h; exact h
  | cons kd0 L ih =>
    intro acc p h
    rw [List.foldl_cons] at h
    exact diffStep_brain_subset (ih _ p h)

end Helpers

/-! ## Claim theorems -/

/-- C10: `Receive(d, data)` stores `data` into the Brain exactly when
`d`'s hash key is present in the currently tracked dependency set; for an
untracked dependency the whole Runner state — in particular the Brain —
is left unchanged. -/
theorem c10_receive_tracked {V : Type} (s : RunnerState V) (d : Dependency)
    (data : V) :
    ((s.dependencies.lookup d.hashCode).isSome = true →
        Receive s d data =
          { s with brain := brainRemember s.brain d.hashCode data } ∧
        (Receive s d data).brain.lookup d.hashCode = some data) ∧
    ((s.dependencies.lookup d.hashCode).isSome = false →
        Receive s d data = s) := by
  constructor
  · intro h
    have he : Receive s d data =
        { s with brain := brainRemember s.brain d.hashCode data } := by
      unfold Receive
      simp [h]
    refine ⟨he, ?_⟩
    rw [he]
    exact lookup_brainRemember_self
  · intro h
    unfold Receive
    simp [h]

/-- Concrete instantiation of `c10_receive_tracked`: a tracked dependency
is remembered, an untracked one leaves the state untouched. -/
theorem c10_witness :
    (Receive (V := Nat) ⟨[], [], [("a", ⟨"a", "svc a", true⟩)], [], 0⟩
        ⟨"a", "svc a", true⟩ 7).brain.lookup "a" = some 7 ∧
    Receive (V := Nat) ⟨[], [], [], [], 0⟩ ⟨"a", "svc a", true⟩ 7 =
      ⟨[], [], [], [], 0⟩ := by
  refine ⟨(((c10_receive_tracked ⟨[], [], [("a", ⟨"a", "svc a", true⟩)], [], 0⟩
      ⟨"a", "svc a", true⟩ 7).1) (by decide)).2, ?_⟩
  exact ((c10_receive_tracked ⟨[], [], [], [], 0⟩ ⟨"a", "svc a", true⟩ 7).2)
    (by decide)

/-- C3: `diffAndUpdateDeps` replaces the tracked set by the pass-local
dependency map, removes every stale tracked dependency from the watcher
and forgets it from the Brain; given that the Brain only holds tracked
keys before the pass (which `Receive` guarantees), the Brain holds no key
outside the new dependency set afterwards.  The final clause ties the
render pass to it: `Run` installs the pass-local map as the tracked set. -/
theorem c3_diff_reconciles (V E : Type) (s : RunnerState V)
    (depsMap : List (String × Dependency))
    (wf : ∀ p ∈ s.dependencies, p.1 = p.2.hashCode)
    (sub : ∀ (k : String) (v : V), (k, v) ∈ s.brain →
        ∃ d, (k, d) ∈ s.dependencies) :
    (diffAndUpdateDeps depsMap s).dependencies = depsMap ∧
    (∀ p ∈ s.dependencies, depsMap.lookup p.1 = none →
        p.2.hashCode ∉ (diffAndUpdateDeps depsMap s).watched ∧
        ∀ v : V, (p.1, v) ∉ (diffAndUpdateDeps depsMap s).brain) ∧
    (∀ (k : String) (v : V), (k, v) ∈ (diffAndUpdateDeps depsMap s).brain →
        ∃ d, (k, d) ∈ depsMap) ∧
    (∀ (once dry : Bool) (tmpls : List TmplInput) (spawn : String → Option E)
        (rs0 : RunnerState V),
        (runPass once dry tmpls spawn rs0).rs.dependencies =
          (tmpls.foldl (processTemplate once dry) (initPass rs0)).depsMap) := by
  refine ⟨rfl, ?_, ?_, fun _ _ _ _ _ => rfl⟩
  · intro p hp hstale
    have hk := diffFold_stale_killed s.dependencies s p hp hstale
    refine ⟨hk.1, ?_⟩
    intro v hv
    have := hk.2 (p.1, v) hv
    exact this (wf p hp)
  · intro k v hv
    have hvs : (k, v) ∈ s.brain := diffFold_brain_subset s.dependencies s (k, v) hv
    obtain ⟨d, hd⟩ := sub k v hvs
    cases hsome : depsMap.lookup k with
    | some d2 => exact ⟨d2, mem_of_lookup_eq_some hsome⟩
    | none =>
      have hk := diffFold_stale_killed s.dependencies s (k, d) hd hsome
      have := hk.2 (k, v) hv
      exact absurd (wf (k, d) hd) this

/-- Concrete instantiation of `c3_diff_reconciles`: retiring the only
tracked dependency clears it from the watcher and the Brain. -/
theorem c3_witness :
    (diffAndUpdateDeps (V := Nat) [] ⟨["a"], [], [("a", ⟨"a", "svc a", true⟩)],
        [("a", 3)], 0⟩).dependencies = [] ∧
    "a" ∉ (diffAndUpdateDeps (V := Nat) [] ⟨["a"], [], [("a", ⟨"a", "svc a", true⟩)],
        [("a", 3)], 0⟩).watched ∧
    ("a", 3) ∉ (diffAndUpdateDeps (V := Nat) [] ⟨["a"], [], [("a", ⟨"a", "svc a", true⟩)],
        [("a", 3)], 0⟩).brain := by
  have h := c3_diff_reconciles Nat Nat
    ⟨["a"], [], [("a", ⟨"a", "svc a", true⟩)], [("a", 3)], 0⟩ []
    (by intro p hp; simp at hp; simp [hp])
    (by
      intro k v hkv
      simp at hkv
      exact ⟨⟨"a", "svc a", true⟩, by simp [hkv.1]⟩)
  have h2 := h.2.1 ("a", ⟨"a", "svc a", true⟩) (by simp) (by rfl)
  exact ⟨h.1, h2.1, h2.2 3⟩

/-- C5: the watcher-error branch of the main loop.  An error that
self-classifies as exit-worthy surfaces its `OriginalError`; otherwise in
once mode the error itself surfaces, and outside once mode it is only
logged (`none`). -/
theorem c5_watcher_error {E : Type} (once : Bool) (e orig : E) :
    handleWatcherError once ⟨e, some (true, orig)⟩ = some orig ∧
    handleWatcherError false ⟨e, some (false, orig)⟩ = none ∧
    handleWatcherError true ⟨e, some (false, orig)⟩ = some e ∧
    handleWatcherError false ⟨e, none⟩ = none ∧
    handleWatcherError true ⟨e, none⟩ = some e :=
  ⟨rfl, rfl, rfl, rfl, rfl⟩

/-- C7 evidence: the first `Stop` halts every subsystem and closes the
done channel; an immediately repeated `Stop` re-observes the halted
subsystems but faults on `close(r.DoneCh)` — the done channel is already
closed, which panics in Go. -/
theorem c7_stop_twice_faults :
    StopRunner ⟨true, true, true, true, true, true, false⟩ =
      Except.ok ⟨true, false, false, true, false, false, true⟩ ∧
    StopRunner ⟨true, false, false, true, false, false, true⟩ =
      Except.error "close of closed channel" :=
  ⟨rfl, rfl⟩

/-- Invariant of a live quiescence window: after any live tick sequence
the pending fire instant is exactly the earlier of "`min` after the most
recent tick" and the absolute deadline, and the deadline and `min` are
unchanged. -/
theorem run_fire_aux :
    ∀ (ts : List Int) (q : Quiescence) (L : Int),
      q.fire = some (Min.min (L + q.min) q.deadline) →
      liveSeq q ts = true →
      (q.run ts).min = q.min ∧ (q.run ts).deadline = q.deadline ∧
      (q.run ts).fire = some (Min.min (ts.getLastD L + q.min) q.deadline) := by
  intro ts
  induction ts with
  | nil =>
    intro q L h _
    exact ⟨rfl, rfl, h⟩
  | cons t ts ih =>
    intro q L h hlive
    unfold liveSeq at hlive
    rw [h] at hlive
    simp at hlive
    obtain ⟨⟨hlt1, htd⟩, hrest⟩ := hlive
    have hq : q.tick t = { q with fire := some (Min.min (t + q.min) q.deadline) } := by
      unfold Quiescence.tick
      rw [h]
      by_cases h1 : t + q.min < q.deadline
      · simp [h1, min_eq_left (le_of_lt h1)]
      · have h2 : 0 < q.deadline - t := by omega
        simp [h1, h2, min_eq_right (not_lt.mp h1)]
    have hstep := ih (q.tick t) t (by rw [hq]) hrest
    rw [hq] at hstep
    have hrun : q.run (t :: ts) = (q.tick t).run ts := rfl
    rw [hrun, hq, List.getLastD_cons]
    exact hstep

/-- C2 (amended): a quiescence record with parameters `min` and `max`.
First tick: arm the timer for `min`, set `deadline = now + max`.
Subsequent tick: re-arm for `min` whenever `now + min ≤ deadline`
(the source tests the strict inequality and falls into the clamp branch
at equality, where the clamp equals `min`); otherwise clamp to
`deadline − now` when positive; otherwise leave the pending fire alone.
Hence over a live window the delivery instant equals
`min (lastTick + min) (firstTick + max)`: it is never later than `max`
after the first tick, and it is no sooner than `min` after the most
recent tick **or** the absolute deadline, whichever is earlier — the
unamended lower bound `lastTick + min` does not hold under the clamp. -/
theorem c2_quiescence_bounds (mn mx t0 : Int) (ts : List Int)
    (hmn : 0 < mn) (hle : mn ≤ mx)
    (hlive : liveSeq ((newQuiescence mn mx).tick t0) ts = true) :
    ((newQuiescence mn mx).tick t0).fire = some (t0 + mn) ∧
    ((newQuiescence mn mx).tick t0).deadline = t0 + mx ∧
    (∀ (q : Quiescence) (f now : Int), q.min = mn → q.fire = some f →
        now + mn ≤ q.deadline → (q.tick now).fire = some (now + mn)) ∧
    (∀ (q : Quiescence) (f now : Int), q.min = mn → q.fire = some f →
        q.deadline < now + mn → 0 < q.deadline - now →
        (q.tick now).fire = some q.deadline) ∧
    (∀ (q : Quiescence) (f now : Int), q.min = mn → q.fire = some f →
        q.deadline - now ≤ 0 → q.tick now = q) ∧
    ((((newQuiescence mn mx).tick t0).run ts).fire =
      some (Min.min (ts.getLastD t0 + mn) (t0 + mx))) ∧
    (∀ f, (((newQuiescence mn mx).tick t0).run ts).fire = some f →
        f ≤ t0 + mx) := by
  have hfirst : (newQuiescence mn mx).tick t0 =
      { min := mn, max := mx, fire := some (t0 + mn), deadline := t0 + mx } := rfl
  have hrun : ((((newQuiescence mn mx).tick t0).run ts).fire =
      some (Min.min (ts.getLastD t0 + mn) (t0 + mx))) := by
    have := run_fire_aux ts ((newQuiescence mn mx).tick t0) t0
      (by rw [hfirst]; simp [min_eq_left (by omega : t0 + mn ≤ t0 + mx)]) hlive
    rw [hfirst] at this
    simpa using this.2.2
  refine ⟨rfl, rfl, ?_, ?_, ?_, hrun, ?_⟩
  · intro q f now hqm hf hsnooze
    unfold Quiescence.tick
    rw [hf, hqm]
    by_cases h1 : now + mn < q.deadline
    · simp [h1]
    · have hdl : q.deadline = now + mn := le_antisymm (not_lt.mp h1) hsnooze
      have h2 : 0 < q.deadline - now := by omega
      simp [h1, h2, hdl, hmn]
  · intro q f now hqm hf hclamp h2
    unfold Quiescence.tick
    rw [hf, hqm]
    have h1 : ¬ (now + mn < q.deadline) := by omega
    simp [h1, h2]
  · intro q f now hqm hf hpast
    unfold Quiescence.tick
    rw [hf, hqm]
    have h1 : ¬ (now + mn < q.deadline) := by omega
    have h2 : ¬ (0 < q.deadline - now) := by omega
    simp [h1, h2]
  · intro f hf
    rw [hrun] at hf
    have : f = Min.min (ts.getLastD t0 + mn) (t0 + mx) := by
      exact Option.some_injective _ hf.symm
    rw [this]
    exact min_le_right _ _

/-- Concrete instantiation of `c2_quiescence_bounds`: `min = 50`,
`max = 200`, ticks at 0 and 20; delivery is armed for instant 70. -/
theorem c2_witness :
    (((newQuiescence 50 200).tick 0).run [20]).fire = some 70 := by
  have h := c2_quiescence_bounds 50 200 0 [20] (by decide) (by decide) (by decide)
  exact h.2.2.2.2.2.1.trans (by decide)

/-- Counterexample to the unamended lower bound of C2: with `min = 50`,
`max = 60` and live ticks at 0 and 20, the timer fires at instant 60 —
sooner than `min` after the most recent tick (20 + 50 = 70). -/
theorem c2_min_bound_cex :
    liveSeq ((newQuiescence 50 60).tick 0) [20] = true ∧
    (((newQuiescence 50 60).tick 0).run [20]).fire = some 60 ∧
    ((60 : Int) < 20 + 50) := by
  refine ⟨by decide, by decide, by decide⟩

/-- Dereferencing after an in-place update at pointer `r` sees the
updated record. -/
theorem lookup_heapUpdate_self (h : List (Nat × REvent)) (r : Nat)
    (f : REvent → REvent) :
    (heapUpdate h r f).lookup r = (h.lookup r).map f := by
  induction h with
  | nil => rfl
  | cons p h ih =>
    obtain ⟨a, b⟩ := p
    by_cases har : a = r
    · subst har
      have h1 : heapUpdate ((a, b) :: h) a f = (a, f b) :: heapUpdate h a f := by
        simp [heapUpdate]
      rw [h1, List.lookup_cons, List.lookup_cons]
      simp
    · have h1 : heapUpdate ((a, b) :: h) r f = (a, b) :: heapUpdate h r f := by
        simp [heapUpdate, har]
      have hb : (r == a) = false := beq_eq_false_iff_ne.mpr (Ne.symm har)
      rw [h1, List.lookup_cons, List.lookup_cons]
      simp [hb, ih]

/-- Appending a binding for a fresh pointer does not change what older
pointers dereference to. -/
theorem lookup_append_fresh (h : List (Nat × REvent)) (k : Nat) (e : REvent)
    (r : Nat) (hne : r ≠ k) :
    (h ++ [(k, e)]).lookup r = h.lookup r := by
  induction h with
  | nil =>
    have hb : (r == k) = false := beq_eq_false_iff_ne.mpr hne
    simp [List.lookup, hb]
  | cons p h ih =>
    obtain ⟨a, b⟩ := p
    by_cases har : r = a
    · subst har
      simp [List.lookup]
    · have hb : (r == a) = false := beq_eq_false_iff_ne.mpr har
      simp only [List.cons_append, List.lookup_cons, hb]
      exact ih

/-- C9 (amended): `RenderEvents` returns a shallow snapshot.  The
ID-to-pointer association handed to the caller is a copy: a later
`markRenderTime` for an existing ID leaves it unchanged, and a first
observation only appends a fresh pointer, so the snapshot's key set and
pointers are independent of the Runner.  The pointed-to `RenderEvent`
records, however, are shared: updating an existing ID mutates the record
in place, visibly through the pointer a previous snapshot holds. -/
theorem c9_snapshot_shallow (s : EventsState) (id : String) (did : Bool)
    (now : Int) :
    renderEventsSnapshot s = s.renderEvents ∧
    (∀ r : Nat, s.renderEvents.lookup id = some r →
        (markRenderTime s id did now).renderEvents = renderEventsSnapshot s ∧
        derefEvent (markRenderTime s id did now) r =
          (derefEvent s r).map (fun e => e.mark did now)) ∧
    (s.renderEvents.lookup id = none →
        (markRenderTime s id did now).renderEvents =
          renderEventsSnapshot s ++ [(id, s.nextRef)] ∧
        (∀ r : Nat, r ≠ s.nextRef →
            derefEvent (markRenderTime s id did now) r = derefEvent s r)) := by
  refine ⟨rfl, ?_, ?_⟩
  · intro r hr
    have hm : markRenderTime s id did now =
        { s with heap := heapUpdate s.heap r (fun e => e.mark did now) } := by
      unfold markRenderTime
      rw [hr]
    rw [hm]
    exact ⟨rfl, lookup_heapUpdate_self s.heap r (fun e => e.mark did now)⟩
  · intro hnone
    have hm : markRenderTime s id did now =
        { renderEvents := s.renderEvents ++ [(id, s.nextRef)],
          heap := s.heap ++ [(s.nextRef, REvent.mark ⟨0, 0⟩ did now)],
          nextRef := s.nextRef + 1 } := by
      unfold markRenderTime
      rw [hnone]
    rw [hm]
    refine ⟨rfl, ?_⟩
    intro r hne
    exact lookup_append_fresh s.heap s.nextRef _ r hne

/-- Counterexample to C9 as stated: take a Runner holding one render
event for template `"t"`; snapshot it, then let a later render pass call
`markRenderTime "t"`.  The entry reachable through the previously
returned snapshot changes from `(0, 0)` to `(0, 5)`. -/
theorem c9_snapshot_mutation_cex :
    (renderEventsSnapshot ⟨[("t", 0)], [(0, ⟨0, 0⟩)], 1⟩).lookup "t" = some 0 ∧
    derefEvent ⟨[("t", 0)], [(0, ⟨0, 0⟩)], 1⟩ 0 = some ⟨0, 0⟩ ∧
    derefEvent (markRenderTime ⟨[("t", 0)], [(0, ⟨0, 0⟩)], 1⟩ "t" true 5) 0 =
      some ⟨0, 5⟩ ∧
    derefEvent (markRenderTime ⟨[("t", 0)], [(0, ⟨0, 0⟩)], 1⟩ "t" true 5) 0 ≠
      derefEvent ⟨[("t", 0)], [(0, ⟨0, 0⟩)], 1⟩ 0 := by
  refine ⟨by decide, by decide, by decide, by decide⟩

/-- Concrete instantiation of `c9_snapshot_shallow`: the snapshot's
association survives the update, while the shared record is rewritten. -/
theorem c9_witness :
    (markRenderTime ⟨[("t", 0)], [(0, ⟨0, 0⟩)], 1⟩ "t" false 9).renderEvents =
      [("t", 0)] ∧
    derefEvent (markRenderTime ⟨[("t", 0)], [(0, ⟨0, 0⟩)], 1⟩ "t" false 9) 0 =
      some ⟨9, 0⟩ := by
  have h := (c9_snapshot_shallow ⟨[("t", 0)], [(0, ⟨0, 0⟩)], 1⟩ "t" false 9).2.1
    0 (by decide)
  exact ⟨h.1.trans (by decide), h.2.trans (by decide)⟩

theorem renderConfig_fields {V : Type} (dry : Bool) (id : String) (s : PassState V)
    (c : ConfigOutcome) :
    (renderConfig dry id s c).rs.watched = s.rs.watched ∧
    (renderConfig dry id s c).rs.brain = s.rs.brain ∧
    (renderConfig dry id s c).rs.dependencies = s.rs.dependencies ∧
    (renderConfig dry id s c).rs.renderedBuf = s.rs.renderedBuf ∧
    (renderConfig dry id s c).depsMap = s.depsMap := by
  unfold renderConfig
  cases hw : c.wouldRender <;> cases hd : c.didRender <;> simp <;> split <;> simp

theorem renderConfig_commands {V : Type} (dry : Bool) (id : String) (s : PassState V)
    (c : ConfigOutcome) :
    (renderConfig dry id s c).commands =
      if (c.didRender && !dry && !(c.command == "") &&
          !(commandExists c.command s.commands)) = true
      then s.commands ++ [c.command] else s.commands := by
  unfold renderConfig
  cases hw : c.wouldRender <;> cases hd : c.didRender <;> simp [hw, hd] <;>
    split <;> simp_all

/-- The branch structure of one template-loop iteration, with the
pass-local values named. -/
theorem processTemplate_eq {V : Type} (once dry : Bool) (s : PassState V)
    (t : TmplInput) :
    processTemplate once dry s t =
      if once && s.rs.events.contains t.id then s
      else if !(unwatchedStep s t).unwatched.isEmpty then
        { s with depsMap := accumulateDeps s.depsMap t.used,
                 rs := { s.rs with watched := (unwatchedStep s t).watched } }
      else if !(augmentedMissing t.isLeader t.missing t.used s.rs.watched).isEmpty then
        { s with depsMap := accumulateDeps s.depsMap t.used }
      else if t.hasQuiescence then
        { s with depsMap := accumulateDeps s.depsMap t.used }
      else
        t.configs.foldl (renderConfig dry t.id)
          { s with depsMap := accumulateDeps s.depsMap t.used } := rfl

theorem processTemplate_fields {V : Type} (once dry : Bool) (s : PassState V)
    (t : TmplInput) :
    (processTemplate once dry s t).rs.brain = s.rs.brain ∧
    (processTemplate once dry s t).rs.dependencies = s.rs.dependencies ∧
    (processTemplate once dry s t).rs.renderedBuf = s.rs.renderedBuf := by
  rw [processTemplate_eq]
  split
  · exact ⟨rfl, rfl, rfl⟩
  split
  · exact ⟨rfl, rfl, rfl⟩
  split
  · exact ⟨rfl, rfl, rfl⟩
  split
  · exact ⟨rfl, rfl, rfl⟩
  refine ⟨?_, ?_, ?_⟩
  · exact foldl_preserve (renderConfig dry t.id) (fun ps => ps.rs.brain)
      (fun a c => (renderConfig_fields dry t.id a c).2.1) t.configs _
  · exact foldl_preserve (renderConfig dry t.id) (fun ps => ps.rs.dependencies)
      (fun a c => (renderConfig_fields dry t.id a c).2.2.1) t.configs _
  · exact foldl_preserve (renderConfig dry t.id) (fun ps => ps.rs.renderedBuf)
      (fun a c => (renderConfig_fields dry t.id a c).2.2.2.1) t.configs _

theorem diffAndUpdateDeps_renderedBuf {V : Type} (dm : List (String × Dependency))
    (s : RunnerState V) :
    (diffAndUpdateDeps dm s).renderedBuf = s.renderedBuf := by
  unfold diffAndUpdateDeps
  exact foldl_preserve (diffStep dm) (fun a => a.renderedBuf)
    (fun a kd => diffStep_renderedBuf) s.dependencies s

/-- C8: `renderedCh` has capacity one; the end-of-pass signal is
non-blocking and happens exactly when some template would-rendered or
did-render; consequently at most one notification is ever buffered, and
any number of signals between two consumer reads coalesce into at most
one pending notification. -/
theorem c8_rendered_channel (V E : Type) (once dry : Bool)
    (tmpls : List TmplInput) (spawn : String → Option E) (rs : RunnerState V) :
    renderedChCap = 1 ∧
    (∀ (w d : Bool) (b : Nat), b ≤ 1 → signalRendered w d b ≤ 1) ∧
    (∀ b : Nat, signalRendered false false b = b) ∧
    (∀ w d : Bool, (w || d) = true →
        signalRendered w d 0 = 1 ∧ signalRendered w d 1 = 1) ∧
    (∀ (ops : List ChanOp) (b : Nat), b ≤ 1 → ops.foldl chanStep b ≤ 1) ∧
    ((runPass once dry tmpls spawn rs).rs.renderedBuf =
      signalRendered
        (tmpls.foldl (processTemplate once dry) (initPass rs)).wouldRenderAny
        (tmpls.foldl (processTemplate once dry) (initPass rs)).renderedAny
        rs.renderedBuf) ∧
    (rs.renderedBuf ≤ 1 → (runPass once dry tmpls spawn rs).rs.renderedBuf ≤ 1) := by
  have hsig : ∀ (w d : Bool) (b : Nat), b ≤ 1 → signalRendered w d b ≤ 1 := by
    intro w d b hb
    unfold signalRendered trySendRendered renderedChCap
    split
    · split <;> omega
    · exact hb
  have hbuf : (tmpls.foldl (processTemplate once dry) (initPass rs)).rs.renderedBuf =
      rs.renderedBuf :=
    foldl_preserve (processTemplate once dry) (fun ps => ps.rs.renderedBuf)
      (fun a t => (processTemplate_fields once dry a t).2.2) tmpls (initPass rs)
  have hpass : (runPass once dry tmpls spawn rs).rs.renderedBuf =
      signalRendered
        (tmpls.foldl (processTemplate once dry) (initPass rs)).wouldRenderAny
        (tmpls.foldl (processTemplate once dry) (initPass rs)).renderedAny
        rs.renderedBuf := by
    show (diffAndUpdateDeps _ _).renderedBuf = _
    rw [diffAndUpdateDeps_renderedBuf]
    show signalRendered _ _
      (tmpls.foldl (processTemplate once dry) (initPass rs)).rs.renderedBuf = _
    rw [hbuf]
  refine ⟨rfl, hsig, ?_, ?_, ?_, hpass, ?_⟩
  · intro b
    rfl
  · intro w d hwd
    unfold signalRendered
    rw [hwd]
    exact ⟨rfl, rfl⟩
  · intro ops
    induction ops with
    | nil => intro b hb; exact hb
    | cons op ops ih =>
      intro b hb
      rw [List.foldl_cons]
      refine ih _ ?_
      cases op with
      | signal w d => exact hsig w d b hb
      | consume =>
        show b - 1 ≤ 1
        omega
  · intro hb
    rw [hpass]
    exact hsig _ _ _ hb

/-- Concrete instantiation of `c8_rendered_channel`: a rendering pass on
an empty buffer leaves exactly one pending notification, and repeated
signals stay within the single slot. -/
theorem c8_witness :
    (runPass (V := Nat) (E := Nat) false false
        [⟨"t", true, [], [], false, [⟨"cmd", true, true⟩]⟩]
        (fun _ => none) ⟨[], [], [], [], 0⟩).rs.renderedBuf = 1 ∧
    [ChanOp.signal true true, ChanOp.signal true false].foldl chanStep 0 ≤ 1 := by
  have h := c8_rendered_channel Nat Nat false false
    [⟨"t", true, [], [], false, [⟨"cmd", true, true⟩]⟩] (fun _ => none)
    ⟨[], [], [], [], 0⟩
  exact ⟨h.2.2.2.2.2.1.trans (by decide), h.2.2.2.2.1 _ 0 (by decide)⟩

/-- C6 evidence: a render pass in once mode does skip a template that
already has a render event (lines 463-471), and without an exec command
the loop exits via `Stop` once every template has an event; but the
claimed child wait is unreachable: whenever an exec command is
configured and all templates are rendered — the very iteration that
spawns the child — the block executes the unmatched
`childLock.Unlock()` (no `Lock()` exists in `runner.go`) and dies with
the Go runtime fatal before the once-mode check runs, on the spawn
path and on the child-already-present path alike, in once mode and
outside it.  Had the write lock been held, the wait would behave
exactly as claimed: `ChildDied` on the child's exit, stop on an
external shutdown. -/
theorem c6_once_wait_unreachable :
    processTemplate (V := Nat) true false
      ⟨⟨[], ["t"], [], [], 0⟩, [], [], false, false⟩
      ⟨"t", true, [], [], false, [⟨"cmd", true, true⟩]⟩ =
      ⟨⟨[], ["t"], [], [], 0⟩, [], [], false, false⟩ ∧
    allTemplatesRendered [⟨"t", true, [], [], false, []⟩] ["t"] = true ∧
    onceCheck true true false false false true none = Except.ok LoopExit.stopped ∧
    onceCheck true true true false false true none =
      Except.error "sync: Unlock of unlocked RWMutex" ∧
    onceCheck true true true true false true (some 3) =
      Except.error "sync: Unlock of unlocked RWMutex" ∧
    onceCheck false true true true false true none =
      Except.error "sync: Unlock of unlocked RWMutex" ∧
    onceCheck true false true false false true none =
      Except.ok LoopExit.keepRunning ∧
    onceCheck true true true true true true (some 3) =
      Except.ok (LoopExit.childDied 3) ∧
    onceCheck true true true true true true none = Except.ok LoopExit.stopped := by
  refine ⟨by decide, by decide, rfl, rfl, rfl, rfl, rfl, rfl, rfl⟩

theorem isEmpty_false_of_ne_nil {α : Type} {l : List α} (h : l ≠ []) :
    l.isEmpty = false := by
  cases l with
  | nil => exact absurd rfl h
  | cons a l => rfl

/-- C1 (amended): in the unwatched step of a template-loop iteration,
an unwatched dependency `d` is subscribed to the watcher if and only if
this agent is leader or `d.CanShare()` is false, and the template is
skipped for the rest of the pass (no render, no event marking, no
command accumulation; only the pass-local dependency map and the watcher
grow) exactly when the unwatched set is non-empty — even when no
dependency at all was added to the watcher.  When the unwatched set is
empty no subscription happens at this step. -/
theorem c1_unwatched_subscribe_skip (V : Type) (once dry : Bool)
    (s : PassState V) (t : TmplInput)
    (hns : (once && s.rs.events.contains t.id) = false) :
    (∀ d ∈ (unwatchedStep s t).unwatched,
        (d ∈ (unwatchedStep s t).added ↔
          (t.isLeader = true ∨ d.canShare = false))) ∧
    (∀ d ∈ (unwatchedStep s t).added, d ∈ (unwatchedStep s t).unwatched) ∧
    ((unwatchedStep s t).unwatched ≠ [] →
        processTemplate once dry s t =
          { s with depsMap := accumulateDeps s.depsMap t.used,
                   rs := { s.rs with watched := (unwatchedStep s t).watched } }) ∧
    ((unwatchedStep s t).unwatched = [] →
        (processTemplate once dry s t).rs.watched = s.rs.watched) := by
  have hcond1 : ¬ ((once && s.rs.events.contains t.id) = true) := by
    rw [hns]; exact Bool.false_ne_true
  refine ⟨?_, ?_, ?_, ?_⟩
  · intro d hd
    constructor
    · intro ha
      have := (List.mem_filter.mp ha).2
      simpa [Bool.or_eq_true, Bool.not_eq_true'] using this
    · intro hc
      refine List.mem_filter.mpr ⟨hd, ?_⟩
      simpa [Bool.or_eq_true, Bool.not_eq_true'] using hc
  · intro d hd
    exact (List.mem_filter.mp hd).1
  · intro hne
    have hcond2 : (!(unwatchedStep s t).unwatched.isEmpty) = true := by
      rw [isEmpty_false_of_ne_nil hne]; rfl
    rw [processTemplate_eq, if_neg hcond1, if_pos hcond2]
  · intro heq
    have hcond2 : ¬ ((!(unwatchedStep s t).unwatched.isEmpty) = true) := by
      rw [heq]
      simp
    rw [processTemplate_eq, if_neg hcond1, if_neg hcond2]
    split
    · rfl
    split
    · rfl
    exact foldl_preserve (renderConfig dry t.id) (fun ps => ps.rs.watched)
      (fun a c => (renderConfig_fields dry t.id a c).1) t.configs _

/-- Counterexample to C1 as stated: a follower (non-leader) whose sole
missing dependency is unwatched but shareable adds **nothing** to the
watcher, yet the template is still skipped — no event is marked and no
command accumulated even though its configuration reported a render.
Under the claim's "skipped exactly when at least one unwatched
dependency was added", this template would not have been skipped. -/
theorem c1_skip_without_add_cex :
    (unwatchedStep (initPass (⟨[], [], [], [], 0⟩ : RunnerState Nat))
        ⟨"t", false, [], [⟨"a", "svc a", true⟩], false, [⟨"cmd", true, true⟩]⟩).added
      = [] ∧
    (unwatchedStep (initPass (⟨[], [], [], [], 0⟩ : RunnerState Nat))
        ⟨"t", false, [], [⟨"a", "svc a", true⟩], false, [⟨"cmd", true, true⟩]⟩).unwatched
      = [⟨"a", "svc a", true⟩] ∧
    (processTemplate false false (initPass (⟨[], [], [], [], 0⟩ : RunnerState Nat))
        ⟨"t", false, [], [⟨"a", "svc a", true⟩], false, [⟨"cmd", true, true⟩]⟩).rs.events
      = [] ∧
    (processTemplate false false (initPass (⟨[], [], [], [], 0⟩ : RunnerState Nat))
        ⟨"t", false, [], [⟨"a", "svc a", true⟩], false, [⟨"cmd", true, true⟩]⟩).commands
      = [] ∧
    (processTemplate false false (initPass (⟨[], [], [], [], 0⟩ : RunnerState Nat))
        ⟨"t", false, [], [⟨"a", "svc a", true⟩], false, [⟨"cmd", true, true⟩]⟩).rs.watched
      = [] := by
  refine ⟨by decide, by decide, by decide, by decide, by decide⟩

/-- Concrete instantiation of `c1_unwatched_subscribe_skip`: a leader
with one unwatched missing dependency subscribes it and skips the
template. -/
theorem c1_witness :
    processTemplate (V := Nat) false false (initPass ⟨[], [], [], [], 0⟩)
      ⟨"t", true, [], [⟨"a", "svc a", true⟩], false, [⟨"cmd", true, true⟩]⟩ =
      ⟨⟨["a"], [], [], [], 0⟩, [], [], false, false⟩ := by
  have h := c1_unwatched_subscribe_skip Nat false false
    (initPass ⟨[], [], [], [], 0⟩)
    ⟨"t", true, [], [⟨"a", "svc a", true⟩], false, [⟨"cmd", true, true⟩]⟩
    (by decide)
  exact (h.2.2.1 (by decide)).trans (by decide)

/-- Command accumulation across one template's configuration loop:
commands are appended at the end, in configuration order, only for
`DidRender` configurations with non-empty commands outside dry mode, and
never when the same string is already scheduled. -/
theorem renderConfigs_fold_commands {V : Type} (dry : Bool) (id : String) :
    ∀ (cs : List ConfigOutcome) (s : PassState V),
      ∃ suf : List String,
        (cs.foldl (renderConfig dry id) s).commands = s.commands ++ suf ∧
        suf.Sublist (cs.map (fun c => c.command)) ∧
        (∀ cmd ∈ suf, dry = false ∧ cmd ≠ "" ∧
            ∃ c ∈ cs, c.didRender = true ∧ c.command = cmd) ∧
        (s.commands.Nodup → (s.commands ++ suf).Nodup) := by
  intro cs
  induction cs with
  | nil =>
    intro s
    exact ⟨[], by simp, by simp, by simp, by simp⟩
  | cons c cs ih =>
    intro s
    rw [List.foldl_cons]
    obtain ⟨suf, h1, h2, h3, h4⟩ := ih (renderConfig dry id s c)
    by_cases hg : (c.didRender && !dry && !(c.command == "") &&
        !(commandExists c.command s.commands)) = true
    · have hcmds : (renderConfig dry id s c).commands = s.commands ++ [c.command] := by
        rw [renderConfig_commands, if_pos hg]
      simp only [Bool.and_eq_true, Bool.not_eq_true'] at hg
      obtain ⟨⟨⟨hdid, hdry⟩, hcmd0⟩, hex⟩ := hg
      refine ⟨c.command :: suf, ?_, ?_, ?_, ?_⟩
      · rw [h1, hcmds, List.append_assoc]
        rfl
      · exact List.Sublist.cons₂ _ h2
      · intro cmd hcmd
        rcases List.mem_cons.mp hcmd with heq | hmem
        · subst heq
          refine ⟨hdry, by simpa using hcmd0, c, List.mem_cons_self c cs, hdid, rfl⟩
        · obtain ⟨hd1, hd2, c2, hc2, hd3, hd4⟩ := h3 cmd hmem
          exact ⟨hd1, hd2, c2, List.mem_cons_of_mem _ hc2, hd3, hd4⟩
      · intro hnd
        have hni : c.command ∉ s.commands := commandExists_eq_false_iff.mp hex
        have hnd2 : (s.commands ++ [c.command]).Nodup := by
          rw [List.nodup_append]
          refine ⟨hnd, List.nodup_singleton _, ?_⟩
          intro x hx hx2
          rw [List.mem_singleton.mp hx2] at hx
          exact hni hx
        have := h4 (by rw [hcmds]; exact hnd2)
        rw [hcmds, List.append_assoc] at this
        exact this
    · have hcmds : (renderConfig dry id s c).commands = s.commands := by
        rw [renderConfig_commands, if_neg hg]
      refine ⟨suf, ?_, ?_, ?_, ?_⟩
      · rw [h1, hcmds]
      · exact List.Sublist.cons _ h2
      · intro cmd hcmd
        obtain ⟨hd1, hd2, c2, hc2, hd3, hd4⟩ := h3 cmd hcmd
        exact ⟨hd1, hd2, c2, List.mem_cons_of_mem _ hc2, hd3, hd4⟩
      · intro hnd
        have := h4 (by rw [hcmds]; exact hnd)
        rw [hcmds] at this
        exact this

/-- Command accumulation across one template-loop iteration. -/
theorem processTemplate_commands {V : Type} (once dry : Bool) (s : PassState V)
    (t : TmplInput) :
    ∃ suf : List String,
      (processTemplate once dry s t).commands = s.commands ++ suf ∧
      suf.Sublist (t.configs.map (fun c => c.command)) ∧
      (∀ cmd ∈ suf, dry = false ∧ cmd ≠ "" ∧
          ∃ c ∈ t.configs, c.didRender = true ∧ c.command = cmd) ∧
      (s.commands.Nodup → (s.commands ++ suf).Nodup) := by
  rw [processTemplate_eq]
  split
  · exact ⟨[], by simp, by simp, by simp, by simp⟩
  split
  · exact ⟨[], by simp, by simp, by simp, by simp⟩
  split
  · exact ⟨[], by simp, by simp, by simp, by simp⟩
  split
  · exact ⟨[], by simp, by simp, by simp, by simp⟩
  exact renderConfigs_fold_commands dry t.id t.configs
    { s with depsMap := accumulateDeps s.depsMap t.used }

/-- Command accumulation across a whole render pass. -/
theorem passFold_commands {V : Type} (once dry : Bool) :
    ∀ (tmpls : List TmplInput) (s : PassState V),
      ∃ suf : List String,
        (tmpls.foldl (processTemplate once dry) s).commands = s.commands ++ suf ∧
        suf.Sublist ((tmpls.map (fun t => t.configs.map
          (fun c => c.command))).flatten) ∧
        (∀ cmd ∈ suf, dry = false ∧ cmd ≠ "" ∧
            ∃ t ∈ tmpls, ∃ c ∈ t.configs, c.didRender = true ∧ c.command = cmd) ∧
        (s.commands.Nodup → (s.commands ++ suf).Nodup) := by
  intro tmpls
  induction tmpls with
  | nil =>
    intro s
    exact ⟨[], by simp, by simp, by simp, by simp⟩
  | cons t tmpls ih =>
    intro s
    rw [List.foldl_cons]
    obtain ⟨suf1, g1, g2, g3, g4⟩ := processTemplate_commands once dry s t
    obtain ⟨suf2, h1, h2, h3, h4⟩ := ih (processTemplate once dry s t)
    refine ⟨suf1 ++ suf2, ?_, ?_, ?_, ?_⟩
    · rw [h1, g1, List.append_assoc]
    · rw [List.map_cons, List.flatten_cons]
      exact List.Sublist.append g2 h2
    · intro cmd hcmd
      rcases List.mem_append.mp hcmd with hm | hm
      · obtain ⟨hd1, hd2, c2, hc2, hd3, hd4⟩ := g3 cmd hm
        exact ⟨hd1, hd2, t, List.mem_cons_self t tmpls, c2, hc2, hd3, hd4⟩
      · obtain ⟨hd1, hd2, t2, ht2, c2, hc2, hd3, hd4⟩ := h3 cmd hm
        exact ⟨hd1, hd2, t2, List.mem_cons_of_mem _ ht2, c2, hc2, hd3, hd4⟩
    · intro hnd
      have := h4 (by rw [g1]; exact g4 hnd)
      rw [g1, List.append_assoc] at this
      exact this

theorem executeCommands_eq_filterMap {E : Type} (spawn : String → Option E) :
    ∀ cmds : List String, executeCommands spawn cmds = cmds.filterMap spawn := by
  have aux : ∀ (cmds : List String) (acc : List E),
      cmds.foldl (fun es c => match spawn c with
        | some e => es ++ [e]
        | none => es) acc = acc ++ cmds.filterMap spawn := by
    intro cmds
    induction cmds with
    | nil => intro acc; simp
    | cons c cmds ih =>
      intro acc
      rw [List.foldl_cons]
      cases hc : spawn c with
      | some e =>
        simp only [List.foldl_cons, hc]
        rw [ih, List.filterMap_cons_some hc, List.append_assoc]
        rfl
      | none =>
        simp only [List.foldl_cons, hc]
        rw [ih, List.filterMap_cons_none hc]
  intro cmds
  unfold executeCommands
  rw [aux]
  rfl

/-- C4: within a single render pass, a command is accumulated only for a
configuration whose FileSink call reported `DidRender`, with a non-empty
command string, outside dry mode (first clause gives the exact per-call
append rule); the accumulated list is a subsequence of the commands in
declaration order; it never holds two entries with the same string; and
command execution afterwards visits every entry, collecting exactly the
errors of the failing spawns in order. -/
theorem c4_commands (V E : Type) (once dry : Bool) (tmpls : List TmplInput)
    (spawn : String → Option E) (rs : RunnerState V) :
    (∀ (s : PassState V) (id : String) (c : ConfigOutcome),
        (renderConfig dry id s c).commands =
          if (c.didRender && !dry && !(c.command == "") &&
              !(commandExists c.command s.commands)) = true
          then s.commands ++ [c.command] else s.commands) ∧
    (∀ cmd ∈ (runPass once dry tmpls spawn rs).commands,
        dry = false ∧ cmd ≠ "" ∧
        ∃ t ∈ tmpls, ∃ c ∈ t.configs, c.didRender = true ∧ c.command = cmd) ∧
    (runPass once dry tmpls spawn rs).commands.Sublist
      ((tmpls.map (fun t => t.configs.map (fun c => c.command))).flatten) ∧
    (runPass once dry tmpls spawn rs).commands.Nodup ∧
    (runPass once dry tmpls spawn rs).errs =
      ((runPass once dry tmpls spawn rs).commands).filterMap spawn := by
  obtain ⟨suf, h1, h2, h3, h4⟩ := passFold_commands once dry tmpls (initPass rs)
  have hcmd : (runPass once dry tmpls spawn rs).commands = suf := by
    show (tmpls.foldl (processTemplate once dry) (initPass rs)).commands = suf
    rw [h1]
    rfl
  refine ⟨fun s id c => renderConfig_commands dry id s c, ?_, ?_, ?_, ?_⟩
  · rw [hcmd]
    exact h3
  · rw [hcmd]
    exact h2
  · rw [hcmd]
    simpa using h4 (by exact List.nodup_nil)
  · rw [hcmd]
    show executeCommands spawn
      (tmpls.foldl (processTemplate once dry) (initPass rs)).commands = _
    rw [h1]
    have h1e : (initPass (V := V) rs).commands ++ suf = suf := rfl
    rw [h1e, executeCommands_eq_filterMap]

/-- Concrete instantiation of `c4_commands` on the spec's own scenario:
configurations declaring commands `x`, `y`, `x` in order, all rendering,
accumulate exactly `x, y`; with every spawn failing, both errors are
collected in order. -/
theorem c4_witness :
    (runPass (V := Nat) (E := Nat) false false
        [⟨"t", true, [], [], false,
          [⟨"x", true, true⟩, ⟨"y", true, true⟩, ⟨"x", true, true⟩]⟩]
        (fun _ => some 1) ⟨[], [], [], [], 0⟩).commands = ["x", "y"] ∧
    (runPass (V := Nat) (E := Nat) false false
        [⟨"t", true, [], [], false,
          [⟨"x", true, true⟩, ⟨"y", true, true⟩, ⟨"x", true, true⟩]⟩]
        (fun _ => some 1) ⟨[], [], [], [], 0⟩).commands.Nodup ∧
    (runPass (V := Nat) (E := Nat) false false
        [⟨"t", true, [], [], false,
          [⟨"x", true, true⟩, ⟨"y", true, true⟩, ⟨"x", true, true⟩]⟩]
        (fun _ => some 1) ⟨[], [], [], [], 0⟩).errs = [1, 1] := by
  have h := c4_commands Nat Nat false false
    [⟨"t", true, [], [], false,
      [⟨"x", true, true⟩, ⟨"y", true, true⟩, ⟨"x", true, true⟩]⟩]
    (fun _ => some 1) ⟨[], [], [], [], 0⟩
  refine ⟨by decide, h.2.2.2.1, ?_⟩
  rw [h.2.2.2.2]
  decide

end ConsulTemplate

